import Mathlib

/-!
Verification of the email-verification token lifecycle of the Events-scheduler
repository (`users/views.py`, `users/email.py`, `users/tasks.py`,
`users/models.py`, `events_scheduler/utils.py`), as a shallow embedding.

Modelling conventions:
* Time is a natural number of seconds (`timezone.now()` becomes an explicit
  `now : Nat` parameter); `datetime.timedelta(hours=1)` is `3600`.
* A database row joins the 1:1 pair `User` / `UserVerification`
  (`User.email` is declared `unique=True` in the source, so it serves as the
  row key): fields `email`, `is_verified` (`User._is_user_verified`),
  `token_email` and `expiration_date_email_token` (both nullable).
* The `cryptography.fernet.Fernet` primitive and Python's
  `base64.urlsafe_b64encode/b64decode` are third-party library calls, not
  repository code; they are modelled symbolically by their documented
  contracts: a Fernet token is an authenticated ciphertext that decrypts
  exactly under the key that produced it (`InvalidToken` otherwise), and the
  URL-safe base64 codec is a bijection between byte strings and their
  encodings (`binascii.Error` on strings that are not well-formed base64).
  Randomness (the Fernet nonce, `secrets.token_hex(128)`) is passed in as an
  explicit parameter.
* Celery's `send_verification_email.delay(email)` enqueues a task; the view
  functions therefore return, besides the outcome and the new database state,
  the list of enqueued recipient addresses.  The task itself
  (`users/tasks.py: send_verification_email`) is modelled separately as a
  database transition that also emits its externally visible actions (the
  row write, then the `send_mail` call) in program order.
-/

namespace EventsScheduler

/-- One joined `User`/`UserVerification` row (`users/models.py`). -/
structure UserRecord where
  email : String
  is_verified : Bool
  token_email : Option String
  expiration_date_email_token : Option Nat
deriving DecidableEq, Repr

/-- `UserVerification.is_email_token_expired` (`users/models.py` lines
129-136), with `timezone.now()` passed explicitly: a `None` expiry is
expired (the final `return True`), otherwise expired iff strictly before
`now` (Python `<` on datetimes). -/
def is_email_token_expired (r : UserRecord) (now : Nat) : Bool :=
  match r.expiration_date_email_token with
  | some e => decide (e < now)
  | none => true

/-- Symbolic byte strings flowing through the cipher layer: either opaque raw
bytes, or a Fernet ciphertext `fernet key nonce plaintext` — the authenticated
token produced by `Fernet(key).encrypt(plaintext.encode())` with the given
random nonce (idealised per the Fernet contract: the embedded HMAC tag
verifies only for ciphertexts genuinely produced under the same key). -/
inductive ByteStr where
  | concrete : List Nat → ByteStr
  | fernet : Nat → Nat → String → ByteStr
deriving DecidableEq, Repr

/-- Strings carried in URLs: either the URL-safe base64 encoding of some byte
string, or a string that is not well-formed base64 (bad length/padding). -/
inductive TokenStr where
  | enc : ByteStr → TokenStr
  | malformed : String → TokenStr
deriving DecidableEq, Repr

/-- The two exception classes caught at `users/views.py` lines 160-163:
`cryptography.fernet.InvalidToken` and `binascii.Error`.  (The spec's error
taxonomy folds both into its `InvalidTokenError`: "decryption/decoding
failure".) -/
inductive DecryptError where
  | invalidToken
  | binasciiError
deriving DecidableEq, Repr

/-- `Fernet(key).encrypt(t.encode())`, nonce made explicit (library model). -/
def fernetEncrypt (key nonce : Nat) (t : String) : ByteStr :=
  ByteStr.fernet key nonce t

/-- `Fernet(key).decrypt(bytes).decode()` (library model): succeeds exactly on
ciphertexts produced under the same key, raising `InvalidToken` otherwise. -/
def fernetDecrypt (key : Nat) (b : ByteStr) : Except DecryptError String :=
  match b with
  | ByteStr.fernet k _ t => if k = key then Except.ok t else Except.error DecryptError.invalidToken
  | ByteStr.concrete _ => Except.error DecryptError.invalidToken

/-- `base64.urlsafe_b64encode(bytes).decode()` (library model). -/
def urlsafe_b64encode (b : ByteStr) : TokenStr :=
  TokenStr.enc b

/-- `base64.urlsafe_b64decode(s.encode())` (library model): inverts the
encoding, raising `binascii.Error` on strings that are not valid base64. -/
def urlsafe_b64decode (s : TokenStr) : Except DecryptError ByteStr :=
  match s with
  | TokenStr.enc b => Except.ok b
  | TokenStr.malformed _ => Except.error DecryptError.binasciiError

/-- `encrypt_token` (`events_scheduler/utils.py` lines 8-21): Fernet-encrypt
then re-encode URL-safe for transport. -/
def encrypt_token (token : String) (key nonce : Nat) : TokenStr :=
  urlsafe_b64encode (fernetEncrypt key nonce token)

/-- `decrypt_token` (`events_scheduler/utils.py` lines 24-41): base64-decode
then Fernet-decrypt; either stage's failure propagates. -/
def decrypt_token (token : TokenStr) (key : Nat) : Except DecryptError String :=
  match urlsafe_b64decode token with
  | Except.error e => Except.error e
  | Except.ok b => fernetDecrypt key b

/-- Row matches a decrypted plaintext token: the
`UserVerification.objects.get(token_email=decrypted_token)` filter. -/
def tokenMatches (t : String) (r : UserRecord) : Bool :=
  decide (r.token_email = some t)

/-- All rows whose `token_email` equals `some t` (the ORM `get` lookup set). -/
def findByToken (db : List UserRecord) (t : String) : List UserRecord :=
  db.filter (tokenMatches t)

/-- All rows with the given (unique) email (`get(email=email)` lookup set). -/
def findByEmail (db : List UserRecord) (email : String) : List UserRecord :=
  db.filter (fun r => decide (r.email = email))

/-- Persist an update to the row keyed by `email` (ORM `save`). -/
def updateRow (db : List UserRecord) (email : String) (f : UserRecord → UserRecord) :
    List UserRecord :=
  db.map (fun r => if r.email = email then f r else r)

/-- The successful-confirmation mutation (`users/views.py` lines 127-133):
`user.is_verified = True` (property setter saves the user row) and both token
fields set to `None` and saved. -/
def consumeRecord (r : UserRecord) : UserRecord :=
  { r with is_verified := true, token_email := none, expiration_date_email_token := none }

/-- The record mutation inside `EmailVerification.generate_encrypted_key`
(`users/email.py` lines 30-43): store the fresh plaintext token and expiry
`now + 1 hour`, and save both fields. -/
def generate_encrypted_key_record (fresh : String) (now : Nat) (r : UserRecord) : UserRecord :=
  { r with token_email := some fresh, expiration_date_email_token := some (now + 3600) }

/-- A fresh `UserVerification` row as created at registration
(`UserVerification.objects.create(user=user)`, both nullable fields `None`)
for a user whose `_is_user_verified` has its default `False`. -/
def initialVerification (email : String) : UserRecord :=
  { email := email, is_verified := false, token_email := none,
    expiration_date_email_token := none }

/-- Externally visible outcome of a `GET` on `ConfirmEmailView`:
`permissionDenied` is the `PermissionDenied` exception (HTTP 403),
`serverError` an uncaught `MultipleObjectsReturned`, `expiredRedirect` the
soft redirect to the homepage with the "token is expired, we have sent you
another verification email" message, `success` the redirect with the
"successfully validated your email" message. -/
inductive ConfirmOutcome where
  | permissionDenied
  | serverError
  | expiredRedirect
  | success
deriving DecidableEq, Repr

/-- Result of one request to `ConfirmEmailView.get`: the outcome, the
database after the request, and the recipient addresses of the
`send_verification_email.delay` tasks it enqueued. -/
structure ConfirmResult where
  outcome : ConfirmOutcome
  db : List UserRecord
  dispatched : List String
deriving DecidableEq, Repr

/-- `ConfirmEmailView.get` together with its helpers `check_token_is_valid`
and `check_token_expiration` (`users/views.py` lines 108-196):
* absent token (`if not token`) → `PermissionDenied`;
* `decrypt_token` raising `InvalidToken` or `binascii.Error` → `PermissionDenied`;
* `get(token_email=decrypted_token)` with no match (`DoesNotExist`) →
  `PermissionDenied`; more than one match would raise
  `MultipleObjectsReturned`, uncaught;
* matching row whose token `is_email_token_expired` → enqueue exactly one
  `send_verification_email.delay(user.email)` and redirect softly,
  database unchanged;
* otherwise → set `is_verified`, null both token fields, save, redirect. -/
def confirmEmailGet (db : List UserRecord) (tok : Option TokenStr) (key now : Nat) :
    ConfirmResult :=
  match tok with
  | none => ⟨ConfirmOutcome.permissionDenied, db, []⟩
  | some s =>
    match decrypt_token s key with
    | Except.error _ => ⟨ConfirmOutcome.permissionDenied, db, []⟩
    | Except.ok plain =>
      match findByToken db plain with
      | [] => ⟨ConfirmOutcome.permissionDenied, db, []⟩
      | [r] =>
        if is_email_token_expired r now then
          ⟨ConfirmOutcome.expiredRedirect, db, [r.email]⟩
        else
          ⟨ConfirmOutcome.success, updateRow db r.email consumeRecord, []⟩
      | _ :: _ :: _ => ⟨ConfirmOutcome.serverError, db, []⟩

/-- Externally visible actions of the dispatch task, in program order: the
`save` of the verification row inside `generate_encrypted_key`, and the
`send_mail` carrying the transport link built in `prepare_html_context`. -/
inductive MailAction where
  | dbWrite (email : String) (token_email : Option String) (expiration : Option Nat)
  | sendMail (recipient : String) (link : TokenStr)
deriving DecidableEq, Repr

/-- Result of one run of the `send_verification_email` Celery task. -/
structure TaskResult where
  ok : Bool
  db : List UserRecord
  actions : List MailAction
deriving DecidableEq, Repr

/-- `send_verification_email` (`users/tasks.py` lines 6-17) together with
`EmailVerification.send_verification_email` / `prepare_html_context` /
`generate_encrypted_key` (`users/email.py`): look the user up by email, store
a fresh random plaintext token (`secrets.token_hex(128)`, passed in as
`fresh`) with expiry `now + 1 hour`, save, and only then send the mail whose
link embeds `encrypt_token fresh key`.  A failed user lookup raises
(`ok := false`); Celery's bounded auto-retry re-runs this whole function. -/
def send_verification_email_task (db : List UserRecord) (email : String)
    (key nonce : Nat) (fresh : String) (now : Nat) : TaskResult :=
  match findByEmail db email with
  | [u] =>
    ⟨true, updateRow db email (generate_encrypted_key_record fresh now),
      [MailAction.dbWrite email (some fresh) (some (now + 3600)),
       MailAction.sendMail u.email (encrypt_token fresh key nonce)]⟩
  | _ => ⟨false, db, []⟩

/-- The database read phase of one confirmation request: the row lookup of
`check_token_is_valid` plus the expiry check, exactly as in the success path
of `confirmEmailGet` but stopping before any write.  `none` means the request
will not reach the consuming write (denied or expired or ambiguous). -/
def confirmRead (db : List UserRecord) (t : String) (now : Nat) : Option UserRecord :=
  match findByToken db t with
  | [r] => if is_email_token_expired r now then none else some r
  | _ => none

/-- The database write phase of one confirmation request: the unconditional
`user.is_verified = True` / null-both-fields `save` of
`ConfirmEmailView.get` lines 127-133, applied to the row read earlier.  The
source guards this write with no transaction and no
clear-only-if-token-still-matches condition. -/
def confirmWrite (db : List UserRecord) (r : UserRecord) : List UserRecord :=
  updateRow db r.email consumeRecord

/-- Two confirmation requests carrying the identical transport token,
interleaved as the unsynchronised source permits: both perform their row
lookup (read phase) against the same database state before either performs
its clearing write.  Returns whether each request reached the success
outcome, and the final database. -/
def twoInterleavedConfirms (db : List UserRecord) (t : String) (now : Nat) :
    Bool × Bool × List UserRecord :=
  match confirmRead db t now, confirmRead db t now with
  | some rA, some rB => (true, true, confirmWrite (confirmWrite db rA) rB)
  | some rA, none => (true, false, confirmWrite db rA)
  | none, some rB => (false, true, confirmWrite db rB)
  | none, none => (false, false, db)

/-- Two confirmation requests carrying the identical transport token, run
serially: the first completes (read, then write if it succeeded) before the
second begins. -/
def twoSequentialConfirms (db : List UserRecord) (t : String) (now : Nat) :
    Bool × Bool × List UserRecord :=
  match confirmRead db t now with
  | some rA =>
    match confirmRead (confirmWrite db rA) t now with
    | some rB => (true, true, confirmWrite (confirmWrite db rA) rB)
    | none => (true, false, confirmWrite db rA)
  | none =>
    match confirmRead db t now with
    | some rB => (false, true, confirmWrite db rB)
    | none => (false, false, db)

/-- The record-level transitions that the source ever applies to a
`UserVerification` row after its creation: issuance
(`generate_encrypted_key`) and consumption (the success path of
`ConfirmEmailView.get`). -/
inductive VStep : UserRecord → UserRecord → Prop where
  | issue (fresh : String) (now : Nat) (r : UserRecord) :
      VStep r (generate_encrypted_key_record fresh now r)
  | consume (r : UserRecord) : VStep r (consumeRecord r)

/-- The issuance-shape invariant: a non-null `token_email` comes with an
expiry that was set, at some issuance instant, to that instant + 1 hour. -/
def tokenExpiryInv (r : UserRecord) : Prop :=
  ∀ t, r.token_email = some t →
    ∃ issuedAt, r.expiration_date_email_token = some (issuedAt + 3600)

/-! Shared lemmas about the lookup, the consuming update, and the cipher. -/

lemma mem_of_findByToken_single {db : List UserRecord} {t : String} {r0 : UserRecord}
    (h : findByToken db t = [r0]) : r0 ∈ db ∧ r0.token_email = some t := by
  have hmem : r0 ∈ findByToken db t := by rw [h]; exact List.mem_singleton.mpr rfl
  have h2 := List.mem_filter.mp hmem
  exact ⟨h2.1, of_decide_eq_true h2.2⟩

lemma eq_of_findByToken_single {db : List UserRecord} {t : String} {r0 : UserRecord}
    (h : findByToken db t = [r0]) :
    ∀ x ∈ db, x.token_email = some t → x = r0 := by
  intro x hx hxt
  have hmem : x ∈ findByToken db t :=
    List.mem_filter.mpr ⟨hx, by simp [tokenMatches, hxt]⟩
  rw [h] at hmem
  exact List.mem_singleton.mp hmem

lemma findByToken_consumeUpdate {db : List UserRecord} {t : String} {r0 : UserRecord}
    (h : findByToken db t = [r0]) :
    findByToken (updateRow db r0.email consumeRecord) t = [] := by
  rw [findByToken, List.filter_eq_nil_iff]
  intro a ha
  rw [updateRow] at ha
  obtain ⟨x, hx, rfl⟩ := List.mem_map.mp ha
  by_cases he : x.email = r0.email
  · simp [he, tokenMatches, consumeRecord]
  · by_cases hxt : x.token_email = some t
    · exact absurd (by rw [eq_of_findByToken_single h x hx hxt]) he
    · simp [he, tokenMatches, hxt]

lemma decrypt_encrypt_roundtrip (t : String) (key nonce : Nat) :
    decrypt_token (encrypt_token t key nonce) key = Except.ok t := by
  simp [decrypt_token, encrypt_token, urlsafe_b64encode, urlsafe_b64decode,
        fernetEncrypt, fernetDecrypt]

lemma confirmEmailGet_decryptError {db : List UserRecord} {s : TokenStr} {key now : Nat}
    (h : ∃ e, decrypt_token s key = Except.error e) :
    confirmEmailGet db (some s) key now = ⟨ConfirmOutcome.permissionDenied, db, []⟩ := by
  obtain ⟨e, he⟩ := h
  simp [confirmEmailGet, he]

lemma confirmEmailGet_notFound {db : List UserRecord} {s : TokenStr} {key now : Nat}
    {t : String} (hdec : decrypt_token s key = Except.ok t)
    (hnil : findByToken db t = []) :
    confirmEmailGet db (some s) key now = ⟨ConfirmOutcome.permissionDenied, db, []⟩ := by
  simp [confirmEmailGet, hdec, hnil]

lemma confirmEmailGet_success {db : List UserRecord} {t : String} {r0 : UserRecord}
    {key nonce now : Nat} (hfind : findByToken db t = [r0])
    (hexp : is_email_token_expired r0 now = false) :
    confirmEmailGet db (some (encrypt_token t key nonce)) key now =
      ⟨ConfirmOutcome.success, updateRow db r0.email consumeRecord, []⟩ := by
  simp [confirmEmailGet, decrypt_encrypt_roundtrip, hfind, hexp]

lemma confirmEmailGet_expired {db : List UserRecord} {t : String} {r0 : UserRecord}
    {key nonce now : Nat} (hfind : findByToken db t = [r0])
    (hexp : is_email_token_expired r0 now = true) :
    confirmEmailGet db (some (encrypt_token t key nonce)) key now =
      ⟨ConfirmOutcome.expiredRedirect, db, [r0.email]⟩ := by
  simp [confirmEmailGet, decrypt_encrypt_roundtrip, hfind, hexp]

lemma confirmRead_some_elim {db : List UserRecord} {t : String} {now : Nat}
    {r : UserRecord} (h : confirmRead db t now = some r) :
    findByToken db t = [r] ∧ is_email_token_expired r now = false := by
  unfold confirmRead at h
  cases hf : findByToken db t with
  | nil => rw [hf] at h; simp at h
  | cons a l =>
    cases l with
    | nil =>
      rw [hf] at h
      by_cases he : is_email_token_expired a now
      · simp [he] at h
      · simp [he] at h
        subst h
        exact ⟨rfl, by simpa using he⟩
    | cons b l2 => rw [hf] at h; simp at h

/-- The micro-step decomposition (`confirmRead` then `confirmWrite`) agrees
with `confirmEmailGet` on a completed successful request: whenever the read
phase returns a row, running the write phase yields exactly the view's
success result. -/
lemma confirmEmailGet_eq_read_then_write {db : List UserRecord} {t : String}
    {r : UserRecord} {key nonce now : Nat} (h : confirmRead db t now = some r) :
    confirmEmailGet db (some (encrypt_token t key nonce)) key now =
      ⟨ConfirmOutcome.success, confirmWrite db r, []⟩ := by
  obtain ⟨hf, he⟩ := confirmRead_some_elim h
  exact confirmEmailGet_success hf he

/-! Claim theorems. -/

/-- C6: for every plaintext token `t`, process key `key` and encryption
nonce, decrypting the result of `encrypt_token` under the same key — through
the URL-safe transport encoding and its decoding — yields `t` exactly:
`decrypt_token (encrypt_token t key nonce) key = ok t`. -/
theorem encrypt_decrypt_roundtrip_exact (t : String) (key nonce : Nat) :
    decrypt_token (encrypt_token t key nonce) key = Except.ok t := by
  simp [decrypt_token, encrypt_token, urlsafe_b64encode, urlsafe_b64decode,
        fernetEncrypt, fernetDecrypt]

/-- C5: any transport string that is not the encryption of some plaintext
under the process key fails to decrypt — with `binascii.Error` on malformed
base64, `InvalidToken` otherwise; both are the spec's `InvalidTokenError`
("decryption/decoding failure") — and `decrypt_token` never returns a
plaintext for it: no partial success. -/
theorem decrypt_fails_outside_encrypt_image (s : TokenStr) (key : Nat)
    (h : ∀ t nonce, s ≠ encrypt_token t key nonce) :
    (∃ e, decrypt_token s key = Except.error e) ∧
      ∀ t, decrypt_token s key ≠ Except.ok t := by
  have herr : ∃ e, decrypt_token s key = Except.error e := by
    cases s with
    | malformed str => exact ⟨DecryptError.binasciiError, rfl⟩
    | enc b =>
      cases b with
      | concrete l => exact ⟨DecryptError.invalidToken, rfl⟩
      | fernet k n t =>
        by_cases hk : k = key
        · exact absurd (by rw [hk]; rfl) (h t n)
        · exact ⟨DecryptError.invalidToken, by
            simp [decrypt_token, urlsafe_b64decode, fernetDecrypt, hk]⟩
  refine ⟨herr, ?_⟩
  obtain ⟨e, he⟩ := herr
  intro t hok
  rw [he] at hok
  exact Except.noConfusion hok

/-- Witness for C5 at the concrete non-ciphertext input `enc (concrete [0])`
(raw bytes that are valid base64 but never came out of `encrypt_token`). -/
theorem decrypt_fails_outside_encrypt_image_witness :
    ∃ e, decrypt_token (TokenStr.enc (ByteStr.concrete [0])) 0 = Except.error e :=
  (decrypt_fails_outside_encrypt_image (TokenStr.enc (ByteStr.concrete [0])) 0
    (by intro t n hcontra;
        exact absurd hcontra (by simp [encrypt_token, urlsafe_b64encode, fernetEncrypt]))).1

/-- The expiry predicate exactly as the spec words it: `expiresAt` is null,
or strictly before the current time. -/
def isExpiredSpec (exp : Option Nat) (now : Nat) : Prop :=
  exp = none ∨ ∃ e, exp = some e ∧ e < now

/-- C7: `is_email_token_expired` returns true iff the expiry is null or
strictly before `now` (fail-closed; an expiry exactly equal to `now` is not
expired, since `<` is strict). -/
theorem is_email_token_expired_iff (r : UserRecord) (now : Nat) :
    is_email_token_expired r now = true ↔
      isExpiredSpec r.expiration_date_email_token now := by
  cases hexp : r.expiration_date_email_token with
  | none => simp [is_email_token_expired, isExpiredSpec, hexp]
  | some e => simp [is_email_token_expired, isExpiredSpec, hexp]

/-- C4: the three failing confirmation shapes — absent token, token whose
decryption raises, and decrypted plaintext matching no stored record — all
produce the identical `PermissionDenied` outcome with the database unchanged
and no notification dispatched: externally indistinguishable, no state
change. -/
theorem confirm_failures_indistinguishable_no_state_change
    (db : List UserRecord) (key now : Nat) (s : TokenStr) (t : String) :
    confirmEmailGet db none key now = ⟨ConfirmOutcome.permissionDenied, db, []⟩
    ∧ ((∃ e, decrypt_token s key = Except.error e) →
        confirmEmailGet db (some s) key now = ⟨ConfirmOutcome.permissionDenied, db, []⟩)
    ∧ (decrypt_token s key = Except.ok t → findByToken db t = [] →
        confirmEmailGet db (some s) key now = ⟨ConfirmOutcome.permissionDenied, db, []⟩) :=
  ⟨rfl, fun h => confirmEmailGet_decryptError h,
    fun hdec hnil => confirmEmailGet_notFound hdec hnil⟩

/-- Witness for C4: the absent-token, undecryptable-token ("xx" is not valid
base64) and no-matching-record cases, each at a concrete input. -/
theorem confirm_failures_indistinguishable_witness :
    confirmEmailGet [] none 0 0 = ⟨ConfirmOutcome.permissionDenied, [], []⟩
    ∧ confirmEmailGet [] (some (TokenStr.malformed "xx")) 0 0 =
        ⟨ConfirmOutcome.permissionDenied, [], []⟩
    ∧ confirmEmailGet [] (some (encrypt_token "t0" 0 0)) 0 0 =
        ⟨ConfirmOutcome.permissionDenied, [], []⟩ :=
  ⟨(confirm_failures_indistinguishable_no_state_change [] 0 0 (TokenStr.malformed "xx") "t0").1,
   (confirm_failures_indistinguishable_no_state_change [] 0 0 (TokenStr.malformed "xx") "t0").2.1
     ⟨DecryptError.binasciiError, rfl⟩,
   (confirm_failures_indistinguishable_no_state_change [] 0 0 (encrypt_token "t0" 0 0) "t0").2.2
     (decrypt_encrypt_roundtrip "t0" 0 0) rfl⟩

/-- C1: with a stored, matching, unexpired token, confirmation with the
matching transport token succeeds exactly once — the outcome is success, the
consumed row (verified, both token fields null) is in the new database — and
a second confirmation with the same transport token then fails at the lookup
step as `PermissionDenied` (not-found), because the cleared record no longer
matches any plaintext. -/
theorem confirm_valid_token_consume_once
    (db : List UserRecord) (r0 : UserRecord) (t : String) (key nonce now now2 : Nat)
    (hfind : findByToken db t = [r0])
    (hexp : is_email_token_expired r0 now = false) :
    confirmEmailGet db (some (encrypt_token t key nonce)) key now =
      ⟨ConfirmOutcome.success, updateRow db r0.email consumeRecord, []⟩
    ∧ consumeRecord r0 ∈ updateRow db r0.email consumeRecord
    ∧ (consumeRecord r0).is_verified = true
    ∧ (consumeRecord r0).token_email = none
    ∧ (consumeRecord r0).expiration_date_email_token = none
    ∧ confirmEmailGet (updateRow db r0.email consumeRecord)
        (some (encrypt_token t key nonce)) key now2 =
      ⟨ConfirmOutcome.permissionDenied, updateRow db r0.email consumeRecord, []⟩ := by
  refine ⟨confirmEmailGet_success hfind hexp, ?_, rfl, rfl, rfl, ?_⟩
  · have hr0 := (mem_of_findByToken_single hfind).1
    rw [updateRow]
    exact List.mem_map.mpr ⟨r0, hr0, by simp⟩
  · exact confirmEmailGet_notFound (decrypt_encrypt_roundtrip t key nonce)
      (findByToken_consumeUpdate hfind)

/-- Witness for C1 at a concrete one-row database: confirm at time 50 a token
expiring at 100 succeeds and clears the row; re-confirming the same link at
time 60 is denied. -/
theorem confirm_valid_token_consume_once_witness :
    confirmEmailGet [⟨"u@x", false, some "tk", some 100⟩]
        (some (encrypt_token "tk" 1 2)) 1 50 =
      ⟨ConfirmOutcome.success, [⟨"u@x", true, none, none⟩], []⟩
    ∧ confirmEmailGet [⟨"u@x", true, none, none⟩]
        (some (encrypt_token "tk" 1 2)) 1 60 =
      ⟨ConfirmOutcome.permissionDenied, [⟨"u@x", true, none, none⟩], []⟩ := by
  have h := confirm_valid_token_consume_once [⟨"u@x", false, some "tk", some 100⟩]
      ⟨"u@x", false, some "tk", some 100⟩ "tk" 1 2 50 60 (by decide) (by decide)
  exact ⟨h.1, h.2.2.2.2.2⟩

/-- C2: a confirmation attempt whose decrypted token matches an expired
record leaves the database untouched (in particular no `is_verified` flag is
set) and enqueues exactly one dispatch with the soft expired-redirect
outcome; the dispatch task then performs exactly one issuance — a fresh
token distinct from the expired one, expiry = task time + 1 hour — followed
by exactly one send, and no row's `is_verified` flag changes. -/
theorem expired_token_soft_reissue
    (db : List UserRecord) (r0 : UserRecord) (t fresh : String)
    (key nonce n2 now now2 : Nat)
    (hfind : findByToken db t = [r0])
    (hexp : is_email_token_expired r0 now = true)
    (hemail : findByEmail db r0.email = [r0])
    (hfresh : fresh ≠ t) :
    confirmEmailGet db (some (encrypt_token t key nonce)) key now =
      ⟨ConfirmOutcome.expiredRedirect, db, [r0.email]⟩
    ∧ send_verification_email_task db r0.email key n2 fresh now2 =
      ⟨true, updateRow db r0.email (generate_encrypted_key_record fresh now2),
        [MailAction.dbWrite r0.email (some fresh) (some (now2 + 3600)),
         MailAction.sendMail r0.email (encrypt_token fresh key n2)]⟩
    ∧ (generate_encrypted_key_record fresh now2 r0).token_email ≠ r0.token_email
    ∧ (updateRow db r0.email (generate_encrypted_key_record fresh now2)).map
        (fun r => (r.email, r.is_verified)) =
      db.map (fun r => (r.email, r.is_verified)) := by
  refine ⟨confirmEmailGet_expired hfind hexp, ?_, ?_, ?_⟩
  · simp [send_verification_email_task, hemail]
  · rw [(mem_of_findByToken_single hfind).2]
    simp [generate_encrypted_key_record, hfresh]
  · rw [updateRow, List.map_map]
    apply List.map_congr_left
    intro x hx
    by_cases hxe : x.email = r0.email
    · simp [hxe, generate_encrypted_key_record]
    · simp [hxe]

/-- Witness for C2 at a concrete one-row database whose token expired at 10,
confirmed at time 20, with the reissue task running at time 100. -/
theorem expired_token_soft_reissue_witness :
    confirmEmailGet [⟨"u@x", false, some "tk", some 10⟩]
        (some (encrypt_token "tk" 1 2)) 1 20 =
      ⟨ConfirmOutcome.expiredRedirect, [⟨"u@x", false, some "tk", some 10⟩], ["u@x"]⟩
    ∧ send_verification_email_task [⟨"u@x", false, some "tk", some 10⟩] "u@x" 1 3 "fresh" 100 =
      ⟨true, updateRow [⟨"u@x", false, some "tk", some 10⟩] "u@x"
          (generate_encrypted_key_record "fresh" 100),
        [MailAction.dbWrite "u@x" (some "fresh") (some 3700),
         MailAction.sendMail "u@x" (encrypt_token "fresh" 1 3)]⟩ := by
  have h := expired_token_soft_reissue [⟨"u@x", false, some "tk", some 10⟩]
      ⟨"u@x", false, some "tk", some 10⟩ "tk" "fresh" 1 2 3 20 100
      (by decide) (by decide) (by decide) (by decide)
  exact ⟨h.1, h.2.1⟩

/-- C3: after a second issuance overwrites the first token, no row holds the
first plaintext any more, a transport token for the first plaintext still
decrypts successfully, yet confirming with it is denied at the exact-match
lookup (not-found); the row-per-user model holds at most one live token. -/
theorem second_issuance_invalidates_first
    (db : List UserRecord) (e t1 t2 : String) (now1 now2 now3 key nonce : Nat)
    (hne : t1 ≠ t2)
    (hothers : ∀ r ∈ db, r.email ≠ e → r.token_email ≠ some t1) :
    (∀ r ∈ updateRow (updateRow db e (generate_encrypted_key_record t1 now1)) e
        (generate_encrypted_key_record t2 now2), r.token_email ≠ some t1)
    ∧ decrypt_token (encrypt_token t1 key nonce) key = Except.ok t1
    ∧ confirmEmailGet (updateRow (updateRow db e (generate_encrypted_key_record t1 now1)) e
        (generate_encrypted_key_record t2 now2))
        (some (encrypt_token t1 key nonce)) key now3 =
      ⟨ConfirmOutcome.permissionDenied,
        updateRow (updateRow db e (generate_encrypted_key_record t1 now1)) e
          (generate_encrypted_key_record t2 now2), []⟩ := by
  have hall : ∀ r ∈ updateRow (updateRow db e (generate_encrypted_key_record t1 now1)) e
      (generate_encrypted_key_record t2 now2), r.token_email ≠ some t1 := by
    intro r hr
    rw [updateRow] at hr
    obtain ⟨x, hx, rfl⟩ := List.mem_map.mp hr
    rw [updateRow] at hx
    obtain ⟨y, hy, rfl⟩ := List.mem_map.mp hx
    by_cases hye : y.email = e
    · simp [hye, generate_encrypted_key_record, Ne.symm hne]
    · simp only [hye, if_false]
      simp [hye, generate_encrypted_key_record]
      exact hothers y hy hye
  refine ⟨hall, decrypt_encrypt_roundtrip t1 key nonce, ?_⟩
  apply confirmEmailGet_notFound (decrypt_encrypt_roundtrip t1 key nonce)
  rw [findByToken, List.filter_eq_nil_iff]
  intro a ha
  simp [tokenMatches]
  exact hall a ha

/-- Witness for C3: a user issued token "a" then token "b"; the stale link
for "a" decrypts but is denied. -/
theorem second_issuance_invalidates_first_witness :
    decrypt_token (encrypt_token "a" 1 2) 1 = Except.ok "a"
    ∧ confirmEmailGet (updateRow (updateRow [⟨"u@x", false, none, none⟩] "u@x"
          (generate_encrypted_key_record "a" 10)) "u@x"
          (generate_encrypted_key_record "b" 20))
        (some (encrypt_token "a" 1 2)) 1 30 =
      ⟨ConfirmOutcome.permissionDenied,
        updateRow (updateRow [⟨"u@x", false, none, none⟩] "u@x"
          (generate_encrypted_key_record "a" 10)) "u@x"
          (generate_encrypted_key_record "b" 20), []⟩ := by
  have h := second_issuance_invalidates_first [⟨"u@x", false, none, none⟩]
      "u@x" "a" "b" 10 20 30 1 2 (by decide) (by decide)
  exact ⟨h.2.1, h.2.2⟩

/-- C10: every run of the dispatch task first overwrites the stored token and
expiry with a fresh random token (the `dbWrite` action precedes the
`sendMail` action in its trace), the sent link embeds the fresh token and can
never equal a transport encoding of the previously stored token, and after
the run no row holds the old token, so a confirmation attempt with the
previously mailed link is denied. -/
theorem dispatch_task_rotates_token_before_send
    (db : List UserRecord) (u : UserRecord) (oldT fresh : String)
    (key nonce n2 now now2 : Nat)
    (hemail : findByEmail db u.email = [u])
    (hold : u.token_email = some oldT)
    (hfresh : fresh ≠ oldT)
    (hothers : ∀ r ∈ db, r.email ≠ u.email → r.token_email ≠ some oldT) :
    send_verification_email_task db u.email key nonce fresh now =
      ⟨true, updateRow db u.email (generate_encrypted_key_record fresh now),
        [MailAction.dbWrite u.email (some fresh) (some (now + 3600)),
         MailAction.sendMail u.email (encrypt_token fresh key nonce)]⟩
    ∧ (∀ n', encrypt_token fresh key nonce ≠ encrypt_token oldT key n')
    ∧ (generate_encrypted_key_record fresh now u).token_email ≠ u.token_email
    ∧ (∀ r ∈ updateRow db u.email (generate_encrypted_key_record fresh now),
        r.token_email ≠ some oldT)
    ∧ confirmEmailGet (updateRow db u.email (generate_encrypted_key_record fresh now))
        (some (encrypt_token oldT key n2)) key now2 =
      ⟨ConfirmOutcome.permissionDenied,
        updateRow db u.email (generate_encrypted_key_record fresh now), []⟩ := by
  have hall : ∀ r ∈ updateRow db u.email (generate_encrypted_key_record fresh now),
      r.token_email ≠ some oldT := by
    intro r hr
    rw [updateRow] at hr
    obtain ⟨x, hx, rfl⟩ := List.mem_map.mp hr
    by_cases hxe : x.email = u.email
    · simp [hxe, generate_encrypted_key_record, hfresh]
    · simp only [hxe, if_false]
      exact hothers x hx hxe
  refine ⟨by simp [send_verification_email_task, hemail], ?_, ?_, hall, ?_⟩
  · intro n' hcontra
    rw [encrypt_token, encrypt_token] at hcontra
    simp [urlsafe_b64encode, fernetEncrypt] at hcontra
    exact hfresh hcontra.2
  · rw [hold]
    simp [generate_encrypted_key_record, hfresh]
  · apply confirmEmailGet_notFound (decrypt_encrypt_roundtrip oldT key n2)
    rw [findByToken, List.filter_eq_nil_iff]
    intro a ha
    simp [tokenMatches]
    exact hall a ha

/-- Witness for C10: a user whose stored token is "old" goes through one task
run with fresh token "new"; the old link is denied afterwards. -/
theorem dispatch_task_rotates_token_before_send_witness :
    send_verification_email_task [⟨"u@x", false, some "old", some 10⟩] "u@x" 1 2 "new" 50 =
      ⟨true, updateRow [⟨"u@x", false, some "old", some 10⟩] "u@x"
          (generate_encrypted_key_record "new" 50),
        [MailAction.dbWrite "u@x" (some "new") (some 3650),
         MailAction.sendMail "u@x" (encrypt_token "new" 1 2)]⟩
    ∧ confirmEmailGet (updateRow [⟨"u@x", false, some "old", some 10⟩] "u@x"
          (generate_encrypted_key_record "new" 50))
        (some (encrypt_token "old" 1 3)) 1 60 =
      ⟨ConfirmOutcome.permissionDenied,
        updateRow [⟨"u@x", false, some "old", some 10⟩] "u@x"
          (generate_encrypted_key_record "new" 50), []⟩ := by
  have h := dispatch_task_rotates_token_before_send [⟨"u@x", false, some "old", some 10⟩]
      ⟨"u@x", false, some "old", some 10⟩ "old" "new" 1 2 3 50 60
      (by decide) (by decide) (by decide) (by decide)
  exact ⟨h.1, h.2.2.2.2⟩

/-- C8: along every sequence of record operations the source performs —
creation with both fields null, issuance setting token and expiry = issuance
instant + 1 hour together, consumption nulling both together — the invariant
holds: a non-null `token_email` always comes with an expiry equal to some
issuance instant + 1 hour. -/
theorem verification_record_invariant
    (email : String) (r : UserRecord)
    (h : Relation.ReflTransGen VStep (initialVerification email) r) :
    ((initialVerification email).token_email = none ∧
      (initialVerification email).expiration_date_email_token = none)
    ∧ tokenExpiryInv r
    ∧ (∀ fresh now x, (generate_encrypted_key_record fresh now x).token_email = some fresh ∧
        (generate_encrypted_key_record fresh now x).expiration_date_email_token =
          some (now + 3600))
    ∧ (∀ x, (consumeRecord x).token_email = none ∧
        (consumeRecord x).expiration_date_email_token = none) := by
  refine ⟨⟨rfl, rfl⟩, ?_, fun fresh now x => ⟨rfl, rfl⟩, fun x => ⟨rfl, rfl⟩⟩
  induction h with
  | refl => intro t ht; exact absurd ht (by simp [initialVerification])
  | tail hab step ih =>
    cases step with
    | issue fresh now x => intro t ht; exact ⟨now, rfl⟩
    | consume x => intro t ht; exact absurd ht (by simp [consumeRecord])

/-- Witness for C8 along the concrete history create → issue → consume. -/
theorem verification_record_invariant_witness :
    tokenExpiryInv
      (consumeRecord (generate_encrypted_key_record "tk" 0 (initialVerification "u@x"))) :=
  (verification_record_invariant "u@x" _
    (Relation.ReflTransGen.tail
      (Relation.ReflTransGen.tail Relation.ReflTransGen.refl
        (VStep.issue "tk" 0 (initialVerification "u@x")))
      (VStep.consume (generate_encrypted_key_record "tk" 0 (initialVerification "u@x"))))).2.1

/-- C9, counterexample: two confirmation requests carrying the identical
valid, unexpired transport token, interleaved so that both perform their row
lookup before either performs its clearing write — an interleaving the
source permits, because `ConfirmEmailView.get` does the lookup and the
unconditional clear as separate database operations with no transaction and
no clear-only-if-token-still-matches guard — BOTH reach the success outcome,
refuting the claimed exactly-one-success guarantee at this concrete input. -/
theorem concurrent_confirms_double_success :
    twoInterleavedConfirms [⟨"u@x", false, some "tk", some 100⟩] "tk" 5 =
      (true, true, [⟨"u@x", true, none, none⟩]) := by decide

/-- C9, amended: when confirmation attempts with the identical valid,
unexpired token execute serially (each request completes before the next
starts), exactly one succeeds and the other observes not-found; the source
provides no stronger guarantee, since the consume is an unconditional
read-then-write without compare-and-clear or a per-row transaction. -/
theorem sequential_confirms_single_success
    (db : List UserRecord) (r0 : UserRecord) (t : String) (now : Nat)
    (hfind : findByToken db t = [r0])
    (hexp : is_email_token_expired r0 now = false) :
    twoSequentialConfirms db t now = (true, false, confirmWrite db r0) := by
  have hread : confirmRead db t now = some r0 := by
    simp [confirmRead, hfind, hexp]
  have hread2 : confirmRead (confirmWrite db r0) t now = none := by
    simp [confirmRead, confirmWrite, findByToken_consumeUpdate hfind]
  simp [twoSequentialConfirms, hread, hread2]

/-- Witness for the amended C9 at a concrete one-row database. -/
theorem sequential_confirms_single_success_witness :
    twoSequentialConfirms [⟨"u@x", false, some "tk", some 100⟩] "tk" 5 =
      (true, false, [⟨"u@x", true, none, none⟩]) := by
  have h := sequential_confirms_single_success [⟨"u@x", false, some "tk", some 100⟩]
      ⟨"u@x", false, some "tk", some 100⟩ "tk" 5 (by decide) (by decide)
  exact h

end EventsScheduler
